import Mathlib

/-!
Verification development for the gut-health annotation pipeline
(`fasta_processor`): shallow embeddings of the queue controller, the
reaper, the tiered-search control flow of `_run_eggnog`, the merge
templates, the pathway-scoring template and the path normalizer,
with theorems settling the specification claims.
-/

namespace GutHealth

/-! ## Python string primitives (on `List Char`)

Embeddings of the Python string operations used by
`EggnogProcessor._to_wsl_path` (services.py:2208-2250).  Paths are
modelled as `List Char`. -/

/-- `path_str.replace('\\', '/')`: one character at a time. -/
def replSlashChar (c : Char) : Char :=
  if c = '\\' then '/' else c

/-- `path_str.replace('\\', '/')`. -/
def replaceBS (s : List Char) : List Char :=
  s.map replSlashChar

/-- Python whitespace for `str.strip()` (ASCII subset). -/
def isPySpace (c : Char) : Bool :=
  c = ' ' || c = '\t' || c = '\n' || c = '\r' || c = '\x0b' || c = '\x0c'

/-- `str.strip()`: drop leading and trailing whitespace. -/
def pyStrip (s : List Char) : List Char :=
  ((s.dropWhile isPySpace).reverse.dropWhile isPySpace).reverse

/-- `str.lower()` (ASCII case mapping, as in `Char.toLower`). -/
def pyLower (s : List Char) : List Char :=
  s.map Char.toLower

/-- `str.lstrip('/')`. -/
def lstripSlash (s : List Char) : List Char :=
  s.dropWhile (· = '/')

/-- Part of `path_str.split(':', 1)` before the first colon. -/
def splitColonBefore (s : List Char) : List Char :=
  s.takeWhile (· ≠ ':')

/-- Part of `path_str.split(':', 1)` after the first colon. -/
def splitColonAfter (s : List Char) : List Char :=
  ((s.dropWhile (· ≠ ':')).drop 1)

/-- The Linux-prefix allow list of `_to_wsl_path`:
`('/home/', '/usr/', '/opt/', '/mnt/', '/tmp/', '/var/')`. -/
def linuxPrefixes : List (List Char) :=
  [String.toList "/home/", String.toList "/usr/", String.toList "/opt/",
   String.toList "/mnt/", String.toList "/tmp/", String.toList "/var/"]

/-- `path_str.startswith(tuple-of-prefixes)`. -/
def startsWithAnyLinux (s : List Char) : Bool :=
  linuxPrefixes.any (fun p => p.isPrefixOf s)

/-- The Windows-drive branch of `_to_wsl_path`
(services.py:2237-2245): split on the first colon, lower-case and
strip the drive, strip leading slashes off the rest, and produce
`/mnt/{drive}/{rest}`.  When a colon is present, `split(':', 1)`
always has exactly two parts, so the inner `return` always fires. -/
def mntConvert (s : List Char) : List Char :=
  let drive := pyStrip (pyLower (splitColonBefore s))
  let rest := lstripSlash (splitColonAfter s)
  String.toList "/mnt/" ++ drive ++ ['/'] ++ rest

/-- `EggnogProcessor._to_wsl_path` (services.py:2208-2250).  After the
backslash replacement no backslash remains, so the
`path_str.startswith('\\')` disjunct of the Windows branch can never
hold on its own and the branch is equivalent to the colon test; when
that test also fails the Python code falls through to
`return path_str`. -/
def toWslPath (p : List Char) : List Char :=
  if startsWithAnyLinux (replaceBS p) then replaceBS p
  else if (replaceBS p).head? = some '/' && !(replaceBS p).contains ':' then
    replaceBS p
  else if (replaceBS p).contains ':' then mntConvert (replaceBS p)
  else replaceBS p

theorem replSlashChar_ne_bs (c : Char) : replSlashChar c ≠ '\\' := by
  unfold replSlashChar
  split
  · decide
  · assumption

theorem replaceBS_eq_self (s : List Char) (h : ∀ c ∈ s, c ≠ '\\') :
    replaceBS s = s := by
  unfold replaceBS
  induction s with
  | nil => rfl
  | cons a t ih =>
    have ha : a ≠ '\\' := h a (List.mem_cons_self a t)
    have : replSlashChar a = a := by
      unfold replSlashChar
      split
      · exact absurd (by assumption) ha
      · rfl
    simp only [List.map_cons, this]
    rw [ih (fun c hc => h c (List.mem_cons_of_mem a hc))]

theorem mem_replaceBS_ne_bs (s : List Char) : ∀ c ∈ replaceBS s, c ≠ '\\' := by
  intro c hc
  unfold replaceBS at hc
  obtain ⟨a, _, rfl⟩ := List.mem_map.mp hc
  exact replSlashChar_ne_bs a

theorem replaceBS_idem (s : List Char) :
    replaceBS (replaceBS s) = replaceBS s :=
  replaceBS_eq_self _ (mem_replaceBS_ne_bs s)

theorem toLower_ne_bs (c : Char) (h : c ≠ '\\') : Char.toLower c ≠ '\\' := by
  by_cases hr : c.toNat ≥ 65 ∧ c.toNat ≤ 90
  · have e : Char.toLower c = Char.ofNat (c.toNat + 32) := by
      unfold Char.toLower
      simp [hr]
    rw [e]
    obtain ⟨h1, h2⟩ := hr
    obtain ⟨n, hn⟩ : ∃ n, c.toNat = n := ⟨_, rfl⟩
    rw [hn] at h1 h2 ⊢
    interval_cases n <;> decide
  · have e : Char.toLower c = c := by
      unfold Char.toLower
      simp [hr]
    rw [e]
    exact h

theorem mem_pyLower_ne_bs (s : List Char) (h : ∀ c ∈ s, c ≠ '\\') :
    ∀ c ∈ pyLower s, c ≠ '\\' := by
  intro c hc
  unfold pyLower at hc
  obtain ⟨a, ha, rfl⟩ := List.mem_map.mp hc
  exact toLower_ne_bs a (h a ha)

theorem mem_dropWhile {p : Char → Bool} (s : List Char) :
    ∀ c ∈ s.dropWhile p, c ∈ s := by
  intro c hc
  exact (List.dropWhile_sublist p (l := s)).mem hc

theorem mem_takeWhile {p : Char → Bool} (s : List Char) :
    ∀ c ∈ s.takeWhile p, c ∈ s := by
  intro c hc
  exact (List.takeWhile_sublist p (l := s)).mem hc

theorem mem_pyStrip (s : List Char) : ∀ c ∈ pyStrip s, c ∈ s := by
  intro c hc
  unfold pyStrip at hc
  rw [List.mem_reverse] at hc
  have h1 := mem_dropWhile _ _ hc
  rw [List.mem_reverse] at h1
  exact mem_dropWhile _ _ h1

theorem mem_mntConvert_ne_bs (s : List Char) (h : ∀ c ∈ s, c ≠ '\\') :
    ∀ c ∈ mntConvert s, c ≠ '\\' := by
  intro c hc
  unfold mntConvert at hc
  rcases List.mem_append.mp hc with hc1 | hrest
  case inl =>
    rcases List.mem_append.mp hc1 with hc2 | hslash
    case inr =>
      simp only [List.mem_singleton] at hslash
      subst hslash; decide
    rcases List.mem_append.mp hc2 with h5 | hdrive
    · have h5' : c ∈ ['/', 'm', 'n', 't', '/'] := h5
      fin_cases h5' <;> decide
    · have hlow := mem_pyStrip _ _ hdrive
      refine mem_pyLower_ne_bs _ ?_ _ hlow
      intro d hd
      exact h d (mem_takeWhile _ _ hd)
  · unfold lstripSlash at hrest
    have h1 := mem_dropWhile _ _ hrest
    unfold splitColonAfter at h1
    have h2 := mem_dropWhile _ _ (List.mem_of_mem_drop h1)
    exact h _ h2

theorem startsWithAnyLinux_mntConvert (s : List Char) :
    startsWithAnyLinux (mntConvert s) = true := by
  unfold startsWithAnyLinux mntConvert
  simp only [linuxPrefixes, List.any_cons, List.any_nil, Bool.or_eq_true]
  refine Or.inr (Or.inr (Or.inr (Or.inl ?_)))
  rw [List.isPrefixOf_iff_prefix]
  exact ((List.prefix_append _ _).trans (List.prefix_append _ _)).trans
    (List.prefix_append _ _)

/-- C10 helper: any string already fixed by the backslash replacement
that either passes one of the return-unchanged checks or contains no
colon is a fixed point of `toWslPath`. -/
theorem toWslPath_fixed (q : List Char) (hq : replaceBS q = q)
    (h : startsWithAnyLinux q = true ∨ q.contains ':' = false) :
    toWslPath q = q := by
  unfold toWslPath
  rw [hq]
  rcases h with h1 | h2
  · simp [h1]
  · have hm : ':' ∉ q := by simpa using h2
    by_cases hs : startsWithAnyLinux q
    · simp [hs]
    · by_cases hh : q.head? = some '/'
      · simp [hs, hh, hm]
      · simp [hs, hh, hm]

/-- C10 — the path normalizer is idempotent: applying
`_to_wsl_path` twice gives the same result as applying it once,
for every input string. -/
theorem toWslPath_idem (p : List Char) :
    toWslPath (toWslPath p) = toWslPath p := by
  by_cases h1 : startsWithAnyLinux (replaceBS p)
  · have e : toWslPath p = replaceBS p := by
      unfold toWslPath
      simp [h1]
    rw [e]
    exact toWslPath_fixed _ (replaceBS_idem p) (Or.inl h1)
  · by_cases h3 : (replaceBS p).contains ':'
    · have hm3 : ':' ∈ replaceBS p := by simpa using h3
      by_cases hh : (replaceBS p).head? = some '/'
      · -- head is '/' but a colon is present: Windows-drive branch
        have e : toWslPath p = mntConvert (replaceBS p) := by
          unfold toWslPath
          simp [h1, hm3, hh]
        rw [e]
        refine toWslPath_fixed _ ?_ (Or.inl (startsWithAnyLinux_mntConvert _))
        exact replaceBS_eq_self _
          (mem_mntConvert_ne_bs _ (mem_replaceBS_ne_bs p))
      · have e : toWslPath p = mntConvert (replaceBS p) := by
          unfold toWslPath
          simp [h1, hm3, hh]
        rw [e]
        refine toWslPath_fixed _ ?_ (Or.inl (startsWithAnyLinux_mntConvert _))
        exact replaceBS_eq_self _
          (mem_mntConvert_ne_bs _ (mem_replaceBS_ne_bs p))
    · have h3' : (replaceBS p).contains ':' = false := by
        simpa using h3
      have hm3 : ':' ∉ replaceBS p := by simpa using h3'
      by_cases hh : (replaceBS p).head? = some '/'
      · have e : toWslPath p = replaceBS p := by
          unfold toWslPath
          simp [h1, hm3, hh]
        rw [e]
        exact toWslPath_fixed _ (replaceBS_idem p) (Or.inr h3')
      · have e : toWslPath p = replaceBS p := by
          unfold toWslPath
          simp [h1, hm3, hh]
        rw [e]
        exact toWslPath_fixed _ (replaceBS_idem p) (Or.inr h3')

/-! ## Merge templates

Embedding of `merge_annotations_template.py` (two-source merge) and
`merge_eggnog_only_template.py` (single source).  Input schemas come
from the upstream templates: the eggNOG-side table
(`extract_enzymes_template.py` / `process_diamond_hits_template.py`)
has columns `protein_id, enzyme_name, ec_number, kegg_ko,
kegg_pathway`; the KofamScan-side table
(`process_kofam_template.py`) has `protein_id, kegg_ko_kofam,
hmm_score`.  A missing CSV cell (pandas `NaN`) is `none`.  The
derived `contig_id` column (a pure function of `protein_id` built
from regex heuristics) affects no claim — not the (protein_id,
EC_number) pairs, not the sort keys, not KO resolution — and is left
out of the row model. -/

structure EggRow where
  protein_id : String
  enzyme_name : Option String
  ec_number : Option String
  kegg_ko : Option String
  kegg_pathway : Option String
deriving DecidableEq

structure KofamRow where
  protein_id : String
  kegg_ko_kofam : Option String
  hmm_score : Option ℚ
deriving DecidableEq

structure MergedRow where
  protein_id : String
  EC_number : Option String
  KEGG_KO : Option String
  enzyme_name : Option String
  pathway : Option String
  confidence_score : String
  annotation_source : String
  hmm_score : Option ℚ
deriving DecidableEq

/-- KofamScan rows matching an eggNOG row's key,
for the `merge(on="protein_id", how="outer")`. -/
def kofamMatches (ks : List KofamRow) (pid : String) : List KofamRow :=
  ks.filter (fun k => k.protein_id = pid)

/-- Pandas outer join on `protein_id`
(merge_annotations_template.py:17-21): every eggNOG row is paired
with each matching KofamScan row (or with no KofamScan columns when
there is no match), and unmatched KofamScan rows are added with the
eggNOG columns missing.  The pre-sort row order is immaterial: the
template ends with a full `sort_values`. -/
def outerJoin (es : List EggRow) (ks : List KofamRow) :
    List (Option EggRow × Option KofamRow) :=
  (es.flatMap (fun e =>
    let ms := kofamMatches ks e.protein_id
    if ms.isEmpty then [((some e : Option EggRow), (none : Option KofamRow))]
    else ms.map (fun k => (some e, some k))))
  ++ ((ks.filter (fun k => es.all (fun e => !(e.protein_id = k.protein_id)))).map
      (fun k => ((none : Option EggRow), some k)))

/-- `str.strip()` on a `String`. -/
def pyStripS (s : String) : String :=
  (pyStrip s.toList).asString

/-- A KEGG value is usable when `pd.notna(v) and v != "-"`
(merge_annotations_template.py:67-68). -/
def usableKo : Option String → Bool
  | none => false
  | some s => s != "-"

/-- `calculate_confidence` (merge_annotations_template.py:66-79):
HIGH when both usable values agree after `strip()`, MEDIUM when both
are usable but differ or exactly one is usable, LOW otherwise. -/
def calcConfidence (eggKo kofamKo : Option String) : String :=
  if usableKo eggKo && usableKo kofamKo then
    if pyStripS (eggKo.getD "") = pyStripS (kofamKo.getD "") then "HIGH"
    else "MEDIUM"
  else if usableKo eggKo || usableKo kofamKo then "MEDIUM"
  else "LOW"

/-- `annotation_source` assignment
(merge_annotations_template.py:84-92): default `eggnog`, overwritten
by `kofamscan` where only the KofamScan KO is non-null and by
`eggnog+kofamscan` where both are non-null (the two conditions are
disjoint, so the two sequential `loc` writes form an if-chain). -/
def annotSource (eggKo kofamKo : Option String) : String :=
  if eggKo.isNone && kofamKo.isSome then "kofamscan"
  else if eggKo.isSome && kofamKo.isSome then "eggnog+kofamscan"
  else "eggnog"

/-- One output row of the two-source merge
(merge_annotations_template.py:49-105): `KEGG_KO` is the eggNOG KO
`fillna`-ed with the KofamScan KO, `EC_number`/`enzyme_name`/`pathway`
come from the eggNOG columns, `hmm_score` from the KofamScan side. -/
def buildRow (oe : Option EggRow) (ok : Option KofamRow) : MergedRow :=
  let eggKo := oe.bind EggRow.kegg_ko
  let kofKo := ok.bind KofamRow.kegg_ko_kofam
  { protein_id :=
      match oe, ok with
      | some e, _ => e.protein_id
      | none, some k => k.protein_id
      | none, none => ""
    EC_number := oe.bind EggRow.ec_number
    KEGG_KO := if eggKo.isSome then eggKo else kofKo
    enzyme_name := oe.bind EggRow.enzyme_name
    pathway := oe.bind EggRow.kegg_pathway
    confidence_score := calcConfidence eggKo kofKo
    annotation_source := annotSource eggKo kofKo
    hmm_score := ok.bind KofamRow.hmm_score }

/-- `confidence_order = {"HIGH": 1, "MEDIUM": 2, "LOW": 3}`
(merge_annotations_template.py:130).  `calculate_confidence` emits
only these three values, so the pandas `NaN`-on-missing-key case is
unreachable. -/
def confOrder (c : String) : Nat :=
  if c = "HIGH" then 1 else if c = "MEDIUM" then 2 else 3

/-- Lexicographic code-point comparison of character lists — the
order Python (and hence pandas) uses on `str` values. -/
def listCharLE : List Char → List Char → Bool
  | [], _ => true
  | _ :: _, [] => false
  | a :: as, b :: bs =>
    if a.toNat < b.toNat then true
    else if b.toNat < a.toNat then false
    else listCharLE as bs

/-- Python string comparison `a <= b`. -/
def strLE (a b : String) : Bool :=
  listCharLE a.toList b.toList

theorem listCharLE_total : ∀ x y : List Char,
    listCharLE x y = true ∨ listCharLE y x = true := by
  intro x
  induction x with
  | nil => intro y; exact Or.inl rfl
  | cons a as ih =>
    intro y
    cases y with
    | nil => exact Or.inr rfl
    | cons b bs =>
      by_cases h1 : a.toNat < b.toNat
      · left
        simp [listCharLE, h1]
      · by_cases h2 : b.toNat < a.toNat
        · right
          simp [listCharLE, h2]
        · rcases ih bs with h | h
          · left
            simp [listCharLE, h1, h2, h]
          · right
            simp [listCharLE, h1, h2, h]

theorem listCharLE_trans : ∀ x y z : List Char,
    listCharLE x y = true → listCharLE y z = true →
    listCharLE x z = true := by
  intro x
  induction x with
  | nil => intro y z _ _; rfl
  | cons a as ih =>
    intro y z hxy hyz
    cases y with
    | nil => simp [listCharLE] at hxy
    | cons b bs =>
      cases z with
      | nil => simp [listCharLE] at hyz
      | cons c cs =>
        simp only [listCharLE] at hxy hyz ⊢
        by_cases hab : a.toNat < b.toNat
        · by_cases hbc : b.toNat < c.toNat
          · have : a.toNat < c.toNat := Nat.lt_trans hab hbc
            simp [this]
          · by_cases hcb : c.toNat < b.toNat
            · rw [if_neg hbc, if_pos hcb] at hyz
              cases hyz
            · have hbceq : b.toNat = c.toNat := Nat.le_antisymm
                (Nat.le_of_not_lt hcb) (Nat.le_of_not_lt hbc)
              have : a.toNat < c.toNat := hbceq ▸ hab
              simp [this]
        · by_cases hba : b.toNat < a.toNat
          · rw [if_neg hab, if_pos hba] at hxy
            cases hxy
          · have habeq : a.toNat = b.toNat := Nat.le_antisymm
              (Nat.le_of_not_lt hba) (Nat.le_of_not_lt hab)
            rw [if_neg hab, if_neg hba] at hxy
            by_cases hbc : b.toNat < c.toNat
            · have : a.toNat < c.toNat := habeq ▸ hbc
              simp [this]
            · by_cases hcb : c.toNat < b.toNat
              · rw [if_neg hbc, if_pos hcb] at hyz
                cases hyz
              · rw [if_neg hbc, if_neg hcb] at hyz
                have hac : ¬ a.toNat < c.toNat := habeq ▸ hbc
                have hca : ¬ c.toNat < a.toNat := habeq ▸ hcb
                rw [if_neg hac, if_neg hca]
                exact ih bs cs hxy hyz

/-- The sort order of `sort_values(["_conf_order", "protein_id"])`
(merge_annotations_template.py:129-132): confidence rank ascending
(i.e. HIGH before MEDIUM before LOW), then `protein_id` ascending. -/
def rowLE (a b : MergedRow) : Prop :=
  confOrder a.confidence_score < confOrder b.confidence_score ∨
    (confOrder a.confidence_score = confOrder b.confidence_score ∧
      strLE a.protein_id b.protein_id = true)

instance : DecidableRel rowLE := fun a b => by
  unfold rowLE
  infer_instance

instance : IsTrans MergedRow rowLE where
  trans a b c hab hbc := by
    rcases hab with h1 | ⟨h1, h2⟩
    · rcases hbc with h3 | ⟨h3, h4⟩
      · exact Or.inl (Nat.lt_trans h1 h3)
      · exact Or.inl (h3 ▸ h1)
    · rcases hbc with h3 | ⟨h3, h4⟩
      · exact Or.inl (h1 ▸ h3)
      · exact Or.inr ⟨h1.trans h3, listCharLE_trans _ _ _ h2 h4⟩

instance : IsTotal MergedRow rowLE where
  total a b := by
    rcases Nat.lt_trichotomy (confOrder a.confidence_score)
        (confOrder b.confidence_score) with h | h | h
    · exact Or.inl (Or.inl h)
    · rcases listCharLE_total a.protein_id.toList b.protein_id.toList with
        h2 | h2
      · exact Or.inl (Or.inr ⟨h, h2⟩)
      · exact Or.inr (Or.inr ⟨h.symm, h2⟩)
    · exact Or.inr (Or.inl h)

/-- `merge_annotations_template.py`: outer join, per-row schema pass,
then `sort_values(["_conf_order", "protein_id"])` and save.  The
pandas sort is modelled by a (stable) insertion sort; the template
applies no deduplication. -/
def mergeAnnotations (es : List EggRow) (ks : List KofamRow) : List MergedRow :=
  List.insertionSort rowLE ((outerJoin es ks).map (fun pr => buildRow pr.1 pr.2))

/-- The (protein_id, EC_number) key pairs of a merged table. -/
def keyPairs (t : List MergedRow) : List (String × Option String) :=
  t.map (fun r => (r.protein_id, r.EC_number))

/-- Concrete eggNOG-side input: two rows sharing protein id and EC
number (two KOs exploded from one annotation, as
`extract_enzymes_template.py` deduplicates only on
`(protein_id, ec_number)` and `process_diamond_hits_template.py`
only on whole rows). -/
def eggDupInput : List EggRow :=
  [ { protein_id := "p1", enzyme_name := some "enzA",
      ec_number := some "1.1.1.1", kegg_ko := some "K00001",
      kegg_pathway := none },
    { protein_id := "p1", enzyme_name := some "enzA",
      ec_number := some "1.1.1.1", kegg_ko := some "K00002",
      kegg_pathway := none } ]

/-- Concrete KofamScan-side input with one unrelated protein. -/
def kofDupInput : List KofamRow :=
  [ { protein_id := "p2", kegg_ko_kofam := some "K00003",
      hmm_score := some 100 } ]

/-- C4 counterexample — the merged table of `eggDupInput` and
`kofDupInput` contains two rows with the same
(protein_id, EC_number) pair: the merge performs no deduplication,
refuting the dedup half of the claim at a concrete input. -/
theorem mergeAnnotations_dedup_fails :
    ¬ (keyPairs (mergeAnnotations eggDupInput kofDupInput)).Nodup := by
  intro h
  have hcount : @List.count (String × Option String) instBEqOfDecidableEq
      ("p1", some "1.1.1.1")
      (keyPairs (mergeAnnotations eggDupInput kofDupInput)) = 2 := by decide
  have hle := List.nodup_iff_count_le_one.mp h
    ("p1", (some "1.1.1.1" : Option String))
  rw [hcount] at hle
  exact absurd hle (by decide)

/-- C4 amended — for every pair of per-source input tables, the
merged annotation table is sorted by confidence_score descending
(HIGH before MEDIUM before LOW) and then by protein_id ascending;
no deduplication on (protein_id, EC_number) is performed, so
duplicate pairs from the inputs survive into the output. -/
theorem mergeAnnotations_sorted (es : List EggRow) (ks : List KofamRow) :
    List.Sorted rowLE (mergeAnnotations es ks) :=
  List.sorted_insertionSort rowLE _

/-- C5 — in the two-source merge, `KEGG_KO` is the eggNOG KO when
that value is present and the KofamScan KO when it is absent;
`confidence_score` is HIGH exactly when both sources carry the same
usable KO (compared after `strip()`), LOW exactly when neither KO is
usable, and MEDIUM exactly when one side only is usable or both are
usable but differ; in particular on a disagreement the row gets
MEDIUM, source `eggnog+kofamscan`, and the eggNOG KO. -/
theorem mergeRow_ko_resolution (e : EggRow) (k : KofamRow) :
    (e.kegg_ko ≠ none → (buildRow (some e) (some k)).KEGG_KO = e.kegg_ko) ∧
    (e.kegg_ko = none →
      (buildRow (some e) (some k)).KEGG_KO = k.kegg_ko_kofam) ∧
    ((buildRow (some e) (some k)).confidence_score = "HIGH" ↔
      usableKo e.kegg_ko = true ∧ usableKo k.kegg_ko_kofam = true ∧
        pyStripS (e.kegg_ko.getD "") = pyStripS (k.kegg_ko_kofam.getD "")) ∧
    ((buildRow (some e) (some k)).confidence_score = "LOW" ↔
      usableKo e.kegg_ko = false ∧ usableKo k.kegg_ko_kofam = false) ∧
    ((buildRow (some e) (some k)).confidence_score = "MEDIUM" ↔
      (usableKo e.kegg_ko ≠ usableKo k.kegg_ko_kofam ∨
        (usableKo e.kegg_ko = true ∧ usableKo k.kegg_ko_kofam = true ∧
          pyStripS (e.kegg_ko.getD "") ≠ pyStripS (k.kegg_ko_kofam.getD "")))) ∧
    (usableKo e.kegg_ko = true → usableKo k.kegg_ko_kofam = true →
      pyStripS (e.kegg_ko.getD "") ≠ pyStripS (k.kegg_ko_kofam.getD "") →
      (buildRow (some e) (some k)).confidence_score = "MEDIUM" ∧
        (buildRow (some e) (some k)).annotation_source = "eggnog+kofamscan" ∧
        (buildRow (some e) (some k)).KEGG_KO = e.kegg_ko) := by
  have hko : (buildRow (some e) (some k)).KEGG_KO =
      (if e.kegg_ko.isSome then e.kegg_ko else k.kegg_ko_kofam) := rfl
  have hconf : (buildRow (some e) (some k)).confidence_score =
      calcConfidence e.kegg_ko k.kegg_ko_kofam := rfl
  have hsrc : (buildRow (some e) (some k)).annotation_source =
      annotSource e.kegg_ko k.kegg_ko_kofam := rfl
  refine ⟨?_, ?_, ?_, ?_, ?_, ?_⟩
  · intro hne
    rw [hko]
    have : e.kegg_ko.isSome = true := Option.isSome_iff_ne_none.mpr hne
    simp [this]
  · intro hnone
    rw [hko, hnone]
    simp
  · rw [hconf]
    unfold calcConfidence
    by_cases he : usableKo e.kegg_ko = true
    · by_cases hk : usableKo k.kegg_ko_kofam = true
      · by_cases hs : pyStripS (e.kegg_ko.getD "") =
            pyStripS (k.kegg_ko_kofam.getD "")
        · simp [he, hk, hs]
        · simp [he, hk, hs]
      · simp [he, hk]
    · by_cases hk : usableKo k.kegg_ko_kofam = true
      · simp [he, hk]
      · simp [he, hk]
  · rw [hconf]
    unfold calcConfidence
    by_cases he : usableKo e.kegg_ko = true
    · by_cases hk : usableKo k.kegg_ko_kofam = true
      · by_cases hs : pyStripS (e.kegg_ko.getD "") =
            pyStripS (k.kegg_ko_kofam.getD "")
        · simp [he, hk, hs]
        · simp [he, hk, hs]
      · simp [he, hk]
    · by_cases hk : usableKo k.kegg_ko_kofam = true
      · simp [he, hk]
      · simp [he, hk]
  · rw [hconf]
    unfold calcConfidence
    by_cases he : usableKo e.kegg_ko = true
    · by_cases hk : usableKo k.kegg_ko_kofam = true
      · by_cases hs : pyStripS (e.kegg_ko.getD "") =
            pyStripS (k.kegg_ko_kofam.getD "")
        · simp [he, hk, hs]
        · simp [he, hk, hs]
      · simp [he, hk]
    · by_cases hk : usableKo k.kegg_ko_kofam = true
      · simp [he, hk]
      · simp [he, hk]
  · intro he hk hs
    have hegg : e.kegg_ko.isSome = true := by
      cases h : e.kegg_ko with
      | none => rw [h] at he; simp [usableKo] at he
      | some s => rfl
    have hkof : k.kegg_ko_kofam.isSome = true := by
      cases h : k.kegg_ko_kofam with
      | none => rw [h] at hk; simp [usableKo] at hk
      | some s => rfl
    refine ⟨?_, ?_, ?_⟩
    · rw [hconf]
      unfold calcConfidence
      simp [he, hk, hs]
    · rw [hsrc]
      unfold annotSource
      have hne : e.kegg_ko ≠ none := Option.isSome_iff_ne_none.mp hegg
      simp [hegg, hkof, hne]
    · rw [hko, if_pos hegg]

/-- Concrete disagreeing pair for the C5 witness. -/
def eggDisagree : EggRow :=
  { protein_id := "p9", enzyme_name := some "enzB",
    ec_number := some "2.7.1.1", kegg_ko := some "K11111",
    kegg_pathway := none }

/-- Concrete KofamScan row disagreeing with `eggDisagree`. -/
def kofDisagree : KofamRow :=
  { protein_id := "p9", kegg_ko_kofam := some "K22222",
    hmm_score := some 250 }

/-- C5 witness: the disagreement clause at a concrete input. -/
theorem mergeRow_ko_resolution_witness :
    (buildRow (some eggDisagree) (some kofDisagree)).confidence_score =
        "MEDIUM" ∧
      (buildRow (some eggDisagree) (some kofDisagree)).annotation_source =
        "eggnog+kofamscan" ∧
      (buildRow (some eggDisagree) (some kofDisagree)).KEGG_KO =
        eggDisagree.kegg_ko :=
  (mergeRow_ko_resolution eggDisagree kofDisagree).2.2.2.2.2
    (by decide) (by decide) (by decide)

/-! ## Pathway scoring template

Embedding of `pathway_scoring_template.py`.  Rationals stand in for
Python floats: every arithmetic step of the template (division by
200, `min`, mean, products, threshold comparisons) is exact on the
claim inputs.  `round(x, 4)` is modelled with Mathlib's `round`
(half-up); it differs from Python's half-even rule only at exact
half-ties of the fifth decimal, which affects neither the scenario
values nor the [0, 1] bound.  The purely cosmetic output columns
(`enzymes_detected` display string, `display_name`, `description`,
`status_color`, `health_impact`) are pass-through strings touched by
no claim and are not modelled. -/

/-- One row of the merged enzymes CSV as the template reads it:
`kegg_ko` holds `str(row.get("KEGG_KO", ""))` (a pandas `NaN` cell
reads back as the string `"nan"`, which never matches an expected
KO), `hmm_score` is `none` when the column is absent or the cell is
`NaN`. -/
structure EnzymeRow where
  kegg_ko : String
  hmm_score : Option ℚ
  confidence_score : String
deriving DecidableEq

/-- One row of `pathway_definitions.csv` after the template's
threshold parsing (defaults 0.0 / 0.3 / 0.7). -/
structure PathwayDef where
  pathway_group : String
  expected_kos : String
  weight : ℚ
  low_threshold : ℚ
  normal_threshold : ℚ
  high_threshold : ℚ
deriving DecidableEq

/-- One output row of the pathway score table. -/
structure ScoreRow where
  pathway_group : String
  coverage : ℚ
  pathway_score : ℚ
  enzymes_detected_count : Nat
  enzymes_expected_count : Nat
  pathway_weight : ℚ
  health_status : String
deriving DecidableEq, Inhabited

/-- Python `str.split(sep)`: `"".split(sep) = [""]`. -/
def splitOnChar (sep : Char) : List Char → List (List Char)
  | [] => [[]]
  | c :: cs =>
    let r := splitOnChar sep cs
    if c = sep then [] :: r
    else
      match r with
      | [] => [[c]]
      | h :: t => (c :: h) :: t

/-- `s.split(sep)` on `String`. -/
def splitStr (sep : Char) (s : String) : List String :=
  (splitOnChar sep s.toList).map List.asString

/-- `str.upper()` (ASCII case mapping). -/
def pyUpper (s : String) : String :=
  (s.toList.map Char.toUpper).asString

/-- Keep-first deduplication: the distinct elements in first-seen
order, modelling Python `set` contents and cardinality. -/
def dedupKos : List String → List String
  | [] => []
  | x :: xs => x :: (dedupKos xs).filter (fun y => y ≠ x)

/-- The KOs contributed by one enzyme row
(pathway_scoring_template.py:84-89): skip `""`/`"-"` cells, split on
commas, strip, drop empties. -/
def rowKos (r : EnzymeRow) : List String :=
  if r.kegg_ko = "" ∨ r.kegg_ko = "-" then []
  else ((splitStr ',' r.kegg_ko).map pyStripS).filter (fun s => s ≠ "")

/-- `confidence_map.get(conf.upper(), 0.5)`
(pathway_scoring_template.py:96-99). -/
def confidenceProxy (conf : String) : ℚ :=
  if pyUpper conf = "HIGH" then 1
  else if pyUpper conf = "MEDIUM" then 7/10
  else if pyUpper conf = "LOW" then 3/10
  else 1/2

/-- Per-row enzyme activity score (EAS)
(pathway_scoring_template.py:91-99): `min(hmm_score / 200, 1.0)` when
an HMM score is present, else the confidence proxy. -/
def easOf (r : EnzymeRow) : ℚ :=
  match r.hmm_score with
  | some h => min (h / 200) 1
  | none => confidenceProxy r.confidence_score

/-- The distinct detected KOs of a pathway: KOs appearing in some
row and in the expected set (keys of `ko_to_eas`,
pathway_scoring_template.py:101-110). -/
def detectedKos (expected : List String) (rows : List EnzymeRow) : List String :=
  dedupKos ((rows.flatMap rowKos).filter (fun ko => ko ∈ expected))

/-- Maximum of a list of rationals (`0` unreached: only applied to
nonempty activity lists). -/
def maxList : List ℚ → ℚ
  | [] => 0
  | [x] => x
  | x :: y :: t => max x (maxList (y :: t))

/-- `ko_to_eas[ko]`: each KO keeps the maximum EAS over the rows
containing it (pathway_scoring_template.py:101-107: a value is
overwritten exactly when strictly larger, leaving the maximum). -/
def bestEas (rows : List EnzymeRow) (ko : String) : ℚ :=
  maxList ((rows.filter (fun r => ko ∈ rowKos r)).map easOf)

/-- `round(x, 4)` (see the section comment on the tie rule). -/
def round4 (q : ℚ) : ℚ :=
  ((round (q * 10000) : ℤ) : ℚ) / 10000

/-- Health status from the pathway's own thresholds
(pathway_scoring_template.py:126-137). -/
def healthStatus (score low normal high : ℚ) : String :=
  if score < low then "CRITICAL"
  else if score < normal then "LOW"
  else if score < high then "NORMAL"
  else "OPTIMAL"

/-- Scoring of one pathway definition
(pathway_scoring_template.py:27-165): `none` when the pathway is
skipped (no expected KOs — unreachable since `split` never returns
an empty list — or no detected KOs). -/
def scorePathway (enzymes : List EnzymeRow) (p : PathwayDef) :
    Option ScoreRow :=
  let expected := dedupKos (splitStr '|' p.expected_kos)
  if expected.length = 0 then none
  else
    let det := detectedKos expected enzymes
    if det.length = 0 then none
    else
      let coverage := min ((det.length : ℚ) / (expected.length : ℚ)) 1
      let eass := det.map (bestEas enzymes)
      let meanEas := eass.sum / (eass.length : ℚ)
      let score := meanEas * coverage * p.weight
      some { pathway_group := p.pathway_group
             coverage := round4 coverage
             pathway_score := round4 score
             enzymes_detected_count := det.length
             enzymes_expected_count := expected.length
             pathway_weight := p.weight
             health_status := healthStatus score p.low_threshold
               p.normal_threshold p.high_threshold }

/-- Output order `sort_values("pathway_score", ascending=False)`. -/
def scoreLE (a b : ScoreRow) : Prop :=
  b.pathway_score ≤ a.pathway_score

instance : DecidableRel scoreLE := fun a b => by
  unfold scoreLE
  infer_instance

instance : IsTrans ScoreRow scoreLE where
  trans _ _ _ hab hbc := le_trans hbc hab

instance : IsTotal ScoreRow scoreLE where
  total a b := (le_total b.pathway_score a.pathway_score).imp id id

/-- The full pathway score table: score every definition, drop the
skipped ones, sort by score descending. -/
def scoreAll (enzymes : List EnzymeRow) (defs : List PathwayDef) :
    List ScoreRow :=
  List.insertionSort scoreLE (defs.filterMap (scorePathway enzymes))

/-- The pathway of Scenario C: `expected_kos = "K00001|K00002"`,
`weight = 2.0`, thresholds (0.0, 0.3, 0.7). -/
def scenarioPathway : PathwayDef :=
  { pathway_group := "test_pathway", expected_kos := "K00001|K00002",
    weight := 2, low_threshold := 0, normal_threshold := 3/10,
    high_threshold := 7/10 }

/-- The enzyme table of Scenario C: only `K00001` detected, with an
HMM score of 160, hence activity `160 / 200 = 0.8`. -/
def scenarioEnzymes : List EnzymeRow :=
  [{ kegg_ko := "K00001", hmm_score := some 160,
     confidence_score := "HIGH" }]

/-- C6 — Scenario C: with `expected_kos = "K00001|K00002"`, weight 2
and thresholds (0, 0.3, 0.7), detecting only `K00001` with activity
0.8 yields coverage `0.5`, `pathway_score = 0.8 × 0.5 × 2 = 0.8` and
health status OPTIMAL (score below none of the pathway's own
thresholds). -/
theorem scorePathway_scenario :
    scorePathway scenarioEnzymes scenarioPathway =
      some { pathway_group := "test_pathway", coverage := 1/2,
             pathway_score := 4/5, enzymes_detected_count := 1,
             enzymes_expected_count := 2, pathway_weight := 2,
             health_status := "OPTIMAL" } := by
  have hexp : dedupKos (splitStr '|' "K00001|K00002") =
      ["K00001", "K00002"] := by decide
  have hdet : detectedKos ["K00001", "K00002"] scenarioEnzymes =
      ["K00001"] := by decide
  have hbest : bestEas scenarioEnzymes "K00001" = 4/5 := by
    have h0 : bestEas scenarioEnzymes "K00001" = min ((160 : ℚ)/200) 1 := rfl
    rw [h0, min_eq_left (by norm_num)]
    norm_num
  unfold scorePathway
  simp only [scenarioPathway, hexp, hdet, List.length_cons, List.length_nil,
    List.map_cons, List.map_nil, hbest, List.sum_cons, List.sum_nil]
  norm_num [min_def, round4, round_ofNat, healthStatus]

theorem round4_nonneg (q : ℚ) (h : 0 ≤ q) : 0 ≤ round4 q := by
  unfold round4
  apply div_nonneg _ (by norm_num)
  have h1 : (0 : ℤ) ≤ round (q * 10000) := by
    rw [round_eq]
    rw [Int.le_floor]
    push_cast
    nlinarith
  exact_mod_cast h1

theorem round4_le_one (q : ℚ) (h : q ≤ 1) : round4 q ≤ 1 := by
  unfold round4
  rw [div_le_one (by norm_num)]
  have h1 : round (q * 10000) ≤ (10000 : ℤ) := by
    rw [round_eq]
    rw [Int.floor_le_iff]
    push_cast
    nlinarith
  exact_mod_cast h1

/-- C7 — every row of the pathway score table has
`0 ≤ coverage ≤ 1`, for every enzyme input table and every list of
pathway definitions (the detected set is filtered to the expected
set, the ratio is divided by the expected count and capped with
`min(·, 1.0)`, and rounding preserves the bounds). -/
theorem scoreAll_coverage_bounds (enzymes : List EnzymeRow)
    (defs : List PathwayDef) (r : ScoreRow)
    (hr : r ∈ scoreAll enzymes defs) :
    0 ≤ r.coverage ∧ r.coverage ≤ 1 := by
  unfold scoreAll at hr
  rw [List.mem_insertionSort] at hr
  obtain ⟨p, _, hp⟩ := List.mem_filterMap.mp hr
  unfold scorePathway at hp
  by_cases h0 : (dedupKos (splitStr '|' p.expected_kos)).length = 0
  · simp [h0] at hp
  · rw [if_neg h0] at hp
    by_cases h1 : (detectedKos (dedupKos (splitStr '|' p.expected_kos))
        enzymes).length = 0
    · simp only [h1, if_pos] at hp
      cases hp
    · rw [if_neg h1] at hp
      have hcov : r.coverage = round4 (min
          (((detectedKos (dedupKos (splitStr '|' p.expected_kos))
              enzymes).length : ℚ) /
            ((dedupKos (splitStr '|' p.expected_kos)).length : ℚ)) 1) := by
        cases hp
        rfl
      rw [hcov]
      constructor
      · apply round4_nonneg
        apply le_min _ (by norm_num)
        apply div_nonneg <;> positivity
      · apply round4_le_one
        exact min_le_right _ _

/-- A one-pathway definition for the C7 witness run. -/
def covPathway : PathwayDef :=
  { pathway_group := "wit_pathway", expected_kos := "K00010",
    weight := 1, low_threshold := 0, normal_threshold := 3/10,
    high_threshold := 7/10 }

/-- A one-row enzyme table for the C7 witness run. -/
def covEnzymes : List EnzymeRow :=
  [{ kegg_ko := "K00010", hmm_score := none,
     confidence_score := "HIGH" }]

/-- The concrete pathway score table of the C7 witness run. -/
def covTable : List ScoreRow :=
  scoreAll covEnzymes [covPathway]

/-- C7 witness: the bound at a concrete row of a concrete run. -/
theorem scoreAll_coverage_bounds_witness :
    covTable.headI ∈ covTable ∧
      0 ≤ covTable.headI.coverage ∧ covTable.headI.coverage ≤ 1 := by
  have h1 : covTable.length = 1 := rfl
  have h2 : covTable.headI ∈ covTable := by
    cases hc : covTable with
    | nil => rw [hc] at h1; cases h1
    | cons a t =>
      exact List.mem_cons_self a t
  exact ⟨h2, scoreAll_coverage_bounds covEnzymes [covPathway] covTable.headI h2⟩

/-! ## Job queue controller and reaper

Embedding of `start_next_job_in_queue` (services.py:66-119) and the
stuck-job reaper in the jobs view (views.py:162-190).  Timestamps
are integers (seconds); `started_at` is set at creation
(`auto_now_add`) and overwritten when a job starts running. -/

inductive JStatus where
  | pending
  | running
  | completed
  | failed
deriving DecidableEq

structure Job where
  status : JStatus
  started_at : Int
  resultFileSet : Bool
  resultFileExists : Bool
deriving DecidableEq

/-- services.py:75-80: "currently running" means status `running`
with `started_at__gt = now - timedelta(hours=6)`; older running jobs
are considered stuck and ignored by admission. -/
def isActiveRunning (now : Int) (j : Job) : Bool :=
  j.status = JStatus.running && now - 21600 < j.started_at

/-- services.py:87: the oldest pending job,
`filter(status='pending').order_by('started_at').first()` — the
first-listed pending job with minimal `started_at`, as an (index,
job) pair. -/
def bestPending : List Job → Option (Nat × Job)
  | [] => none
  | j :: js =>
    match bestPending js with
    | none => if j.status = JStatus.pending then some (0, j) else none
    | some (k, m) =>
      if j.status = JStatus.pending then
        if m.started_at < j.started_at then some (k + 1, m) else some (0, j)
      else some (k + 1, m)

/-- `start_next_job_in_queue` (services.py:66-119): refuse admission
while any non-stuck job is running, otherwise pick the oldest
pending job (which the launched worker then marks `running`). -/
def admitNext (now : Int) (jobs : List Job) : Option (Nat × Job) :=
  if jobs.any (isActiveRunning now) then none
  else bestPending jobs

theorem bestPending_cons_none (a : Job) (t : List Job)
    (hbt : bestPending t = none) :
    bestPending (a :: t) =
      if a.status = JStatus.pending then some (0, a) else none := by
  unfold bestPending
  rw [hbt]

theorem bestPending_cons_some (a : Job) (t : List Job) (k : Nat) (m : Job)
    (hbt : bestPending t = some (k, m)) :
    bestPending (a :: t) =
      if a.status = JStatus.pending then
        if m.started_at < a.started_at then some (k + 1, m)
        else some (0, a)
      else some (k + 1, m) := by
  unfold bestPending
  rw [hbt]

theorem bestPending_none : ∀ (js : List Job), bestPending js = none →
    ∀ j ∈ js, j.status ≠ JStatus.pending := by
  intro js
  induction js with
  | nil => intro _ j hj; cases hj
  | cons a t ih =>
    intro h j hj
    cases hbt : bestPending t with
    | none =>
      rw [bestPending_cons_none a t hbt] at h
      by_cases ha : a.status = JStatus.pending
      · rw [if_pos ha] at h
        cases h
      · rcases List.mem_cons.mp hj with rfl | hjt
        · exact ha
        · exact ih hbt j hjt
    | some km =>
      obtain ⟨k, m⟩ := km
      rw [bestPending_cons_some a t k m hbt] at h
      by_cases ha : a.status = JStatus.pending
      · rw [if_pos ha] at h
        by_cases hlt : m.started_at < a.started_at
        · rw [if_pos hlt] at h
          cases h
        · rw [if_neg hlt] at h
          cases h
      · rw [if_neg ha] at h
        cases h

theorem bestPending_spec : ∀ (js : List Job) (k : Nat) (m : Job),
    bestPending js = some (k, m) →
    js.get? k = some m ∧ m.status = JStatus.pending ∧
      ∀ j ∈ js, j.status = JStatus.pending →
        m.started_at ≤ j.started_at := by
  intro js
  induction js with
  | nil => intro k m h; cases h
  | cons a t ih =>
    intro k m h
    cases hbt : bestPending t with
    | none =>
      rw [bestPending_cons_none a t hbt] at h
      by_cases ha : a.status = JStatus.pending
      · rw [if_pos ha] at h
        injection h with h1
        injection h1 with hk hm
        subst hk
        subst hm
        refine ⟨rfl, ha, ?_⟩
        intro j hj hjp
        rcases List.mem_cons.mp hj with rfl | hjt
        · exact le_refl _
        · exact absurd hjp (bestPending_none t hbt j hjt)
      · rw [if_neg ha] at h
        cases h
    | some km =>
      obtain ⟨k0, m0⟩ := km
      obtain ⟨hget, hpend, hmin⟩ := ih k0 m0 hbt
      rw [bestPending_cons_some a t k0 m0 hbt] at h
      by_cases ha : a.status = JStatus.pending
      · rw [if_pos ha] at h
        by_cases hlt : m0.started_at < a.started_at
        · rw [if_pos hlt] at h
          injection h with h1
          injection h1 with hk hm
          subst hk
          subst hm
          refine ⟨hget, hpend, ?_⟩
          intro j hj hjp
          rcases List.mem_cons.mp hj with rfl | hjt
          · exact le_of_lt hlt
          · exact hmin j hjt hjp
        · rw [if_neg hlt] at h
          injection h with h1
          injection h1 with hk hm
          subst hk
          subst hm
          refine ⟨rfl, ha, ?_⟩
          intro j hj hjp
          rcases List.mem_cons.mp hj with rfl | hjt
          · exact le_refl _
          · exact le_trans (le_of_not_lt hlt) (hmin j hjt hjp)
      · rw [if_neg ha] at h
        injection h with h1
        injection h1 with hk hm
        subst hk
        subst hm
        refine ⟨hget, hpend, ?_⟩
        intro j hj hjp
        rcases List.mem_cons.mp hj with rfl | hjt
        · exact absurd hjp ha
        · exact hmin j hjt hjp

/-- System state: a clock and the persisted job table. -/
structure QState where
  now : Int
  jobs : List Job

/-- A freshly uploaded job: `status = pending`, `started_at` set at
creation (`auto_now_add`), no result artifact yet. -/
def newJob (t : Int) : Job :=
  { status := JStatus.pending, started_at := t,
    resultFileSet := false, resultFileExists := false }

/-- The admitted worker marking its job running
(services.py:280-284): `status = 'running'`,
`started_at = timezone.now()`. -/
def markRunning (m : Job) (t : Int) : Job :=
  { m with status := JStatus.running, started_at := t }

/-- A status write leaving the other fields unchanged. -/
def setStatus (j : Job) (st : JStatus) : Job :=
  { j with status := st }

/-- The observable events of the queue: a new upload (a pending job
with `started_at` set to its creation time), the clock advancing, an
admission (the admitted job becomes `running` with a fresh
`started_at`, as in `process_fasta`, services.py:280-284), a job
reaching a terminal status, and an operator retry of a failed job. -/
inductive QStep : QState → QState → Prop where
  | upload (s : QState) :
      QStep s ⟨s.now, s.jobs ++ [newJob s.now]⟩
  | tick (s : QState) (now2 : Int) (h : s.now ≤ now2) :
      QStep s ⟨now2, s.jobs⟩
  | admitJob (s : QState) (k : Nat) (m : Job)
      (h : admitNext s.now s.jobs = some (k, m)) :
      QStep s ⟨s.now, s.jobs.set k (markRunning m s.now)⟩
  | finish (s : QState) (i : Nat) (j : Job) (st : JStatus)
      (hj : s.jobs.get? i = some j)
      (hst : st = JStatus.completed ∨ st = JStatus.failed) :
      QStep s ⟨s.now, s.jobs.set i (setStatus j st)⟩
  | retry (s : QState) (i : Nat) (j : Job)
      (hj : s.jobs.get? i = some j) (hf : j.status = JStatus.failed) :
      QStep s ⟨s.now, s.jobs.set i (setStatus j JStatus.pending)⟩

/-- Number of non-stuck running jobs. -/
def activeCount (s : QState) : Nat :=
  (s.jobs.filter (isActiveRunning s.now)).length

/-- The single-slot invariant: at most one non-stuck running job. -/
def SingleSlot (s : QState) : Prop :=
  activeCount s ≤ 1

theorem filter_length_imp {p q : Job → Bool} :
    ∀ (l : List Job), (∀ x, p x = true → q x = true) →
    (l.filter p).length ≤ (l.filter q).length := by
  intro l h
  induction l with
  | nil => exact Nat.le_refl 0
  | cons a t ih =>
    by_cases hp : p a = true
    · rw [List.filter_cons_of_pos hp, List.filter_cons_of_pos (h a hp)]
      simpa using ih
    · rw [List.filter_cons_of_neg (by simpa using hp)]
      by_cases hq : q a = true
      · rw [List.filter_cons_of_pos hq]
        exact le_trans ih (by simp)
      · rw [List.filter_cons_of_neg (by simpa using hq)]
        exact ih

theorem filter_set_of_all_neg {p : Job → Bool} :
    ∀ (l : List Job) (i : Nat) (x : Job),
    (∀ j ∈ l, p j = false) → ((l.set i x).filter p).length ≤ 1 := by
  intro l
  induction l with
  | nil => intro i x _; simp
  | cons a t ih =>
    intro i x hall
    cases i with
    | zero =>
      rw [List.set_cons_zero]
      have ht : t.filter p = [] := List.filter_eq_nil_iff.mpr
        (fun j hj => by simp [hall j (List.mem_cons_of_mem a hj)])
      by_cases hx : p x = true
      · rw [List.filter_cons_of_pos hx, ht]
        simp
      · rw [List.filter_cons_of_neg (by simpa using hx), ht]
        simp
    | succ n =>
      rw [List.set_cons_succ]
      have ha : p a = false := hall a (List.mem_cons_self a t)
      rw [List.filter_cons_of_neg (by simp [ha])]
      exact ih n x (fun j hj => hall j (List.mem_cons_of_mem a hj))

theorem filter_set_of_neg {p : Job → Bool} :
    ∀ (l : List Job) (i : Nat) (x : Job), p x = false →
    ((l.set i x).filter p).length ≤ (l.filter p).length := by
  intro l
  induction l with
  | nil => intro i x _; simp
  | cons a t ih =>
    intro i x hx
    cases i with
    | zero =>
      rw [List.set_cons_zero]
      rw [List.filter_cons_of_neg (by simp [hx])]
      by_cases ha : p a = true
      · rw [List.filter_cons_of_pos ha]
        simp
      · rw [List.filter_cons_of_neg (by simpa using ha)]
    | succ n =>
      rw [List.set_cons_succ]
      by_cases ha : p a = true
      · rw [List.filter_cons_of_pos ha, List.filter_cons_of_pos ha]
        simpa using ih n x hx
      · rw [List.filter_cons_of_neg (by simpa using ha),
          List.filter_cons_of_neg (by simpa using ha)]
        exact ih n x hx

/-- C2 — (a) admission is refused whenever some job is `running`
with `started_at` within the last 6 hours; (b) an admitted job is a
pending job with minimal `started_at` among all pending jobs (the
oldest pending job); (c) every queue event preserves the single-slot
invariant: at no observable instant are two jobs simultaneously in
non-stuck `running` status. -/
theorem queue_single_slot :
    (∀ (now : Int) (jobs : List Job),
      jobs.any (isActiveRunning now) = true → admitNext now jobs = none) ∧
    (∀ (now : Int) (jobs : List Job) (k : Nat) (m : Job),
      admitNext now jobs = some (k, m) →
      jobs.get? k = some m ∧ m.status = JStatus.pending ∧
        ∀ j ∈ jobs, j.status = JStatus.pending →
          m.started_at ≤ j.started_at) ∧
    (∀ s s2 : QState, QStep s s2 → SingleSlot s → SingleSlot s2) := by
  refine ⟨?_, ?_, ?_⟩
  · intro now jobs h
    unfold admitNext
    rw [if_pos h]
  · intro now jobs k m h
    unfold admitNext at h
    by_cases hany : jobs.any (isActiveRunning now) = true
    · rw [if_pos hany] at h
      cases h
    · rw [if_neg hany] at h
      exact bestPending_spec jobs k m h
  · intro s s2 hstep hinv
    cases hstep with
    | upload =>
      unfold SingleSlot activeCount at hinv ⊢
      simp only [List.filter_append]
      have hnew : isActiveRunning s.now (newJob s.now) = false := by
        unfold isActiveRunning newJob
        simp
      rw [List.filter_cons_of_neg (by simp [hnew]), List.filter_nil]
      simpa using hinv
    | tick now2 hle =>
      unfold SingleSlot activeCount at hinv ⊢
      refine le_trans (filter_length_imp s.jobs ?_) hinv
      intro x hx
      unfold isActiveRunning at hx ⊢
      rcases Bool.and_eq_true_iff.mp hx with ⟨h1, h2⟩
      rw [h1]
      simp only [Bool.true_and]
      simp only [decide_eq_true_eq] at h2 ⊢
      omega
    | admitJob k m hadm =>
      unfold SingleSlot activeCount
      unfold admitNext at hadm
      by_cases hany : s.jobs.any (isActiveRunning s.now) = true
      · rw [if_pos hany] at hadm
        cases hadm
      · have hall : ∀ j ∈ s.jobs, isActiveRunning s.now j = false := by
          intro j hj
          by_contra hc
          exact hany (List.any_eq_true.mpr ⟨j, hj,
            Bool.of_not_eq_false hc⟩)
        exact filter_set_of_all_neg s.jobs k _ hall
    | finish i j st hj hst =>
      unfold SingleSlot activeCount at hinv ⊢
      refine le_trans (filter_set_of_neg s.jobs i _ ?_) hinv
      unfold isActiveRunning setStatus
      rcases hst with rfl | rfl <;> simp
    | retry i j hj hf =>
      unfold SingleSlot activeCount at hinv ⊢
      refine le_trans (filter_set_of_neg s.jobs i _ ?_) hinv
      unfold isActiveRunning setStatus
      simp

/-- A concrete running job for the C2 witness. -/
def runningJobW : Job :=
  { status := JStatus.running, started_at := 100,
    resultFileSet := false, resultFileExists := false }

/-- C2 witness: with one freshly started running job, admission is
refused at a concrete instant. -/
theorem queue_single_slot_witness :
    admitNext 200 [runningJobW] = none :=
  queue_single_slot.1 200 [runningJobW] (by decide)

/-- The stuck-job filter of the reaper (views.py:164-167): running
jobs whose `started_at` is more than 3 hours in the past. -/
def stuckJobs (now : Int) (jobs : List Job) : List Job :=
  jobs.filter (fun j =>
    j.status = JStatus.running && j.started_at < now - 10800)

/-- One reaper step on one stuck-detected job (views.py:169-190):
with a result artifact present the job is marked `completed`;
otherwise it is marked `failed` and `start_next_job_in_queue()` is
called (the returned flag). -/
def reapJob (now : Int) (j : Job) : Job × Bool :=
  if j.status = JStatus.running && j.started_at < now - 10800 then
    if j.resultFileSet && j.resultFileExists then
      ({ j with status := JStatus.completed }, false)
    else ({ j with status := JStatus.failed }, true)
  else (j, false)

/-- C9 — every running job detected stuck (started more than 3 hours
ago at check time) is transitioned by the reaper to `failed` with
queue admission triggered when no result artifact exists, and to
`completed` without triggering admission when a result artifact does
exist. -/
theorem reaper_spec (now : Int) (jobs : List Job) (j : Job)
    (hj : j ∈ stuckJobs now jobs) :
    ((j.resultFileSet && j.resultFileExists) = false →
      reapJob now j = ({ j with status := JStatus.failed }, true)) ∧
    ((j.resultFileSet && j.resultFileExists) = true →
      reapJob now j = ({ j with status := JStatus.completed }, false)) := by
  have hcond : (j.status = JStatus.running &&
      j.started_at < now - 10800) = true :=
    (List.mem_filter.mp hj).2
  constructor
  · intro hart
    unfold reapJob
    rw [if_pos hcond, if_neg (by simp [hart])]
  · intro hart
    unfold reapJob
    rw [if_pos hcond, if_pos hart]

/-- A concrete stuck job without a result artifact. -/
def stuckJobW : Job :=
  { status := JStatus.running, started_at := 0,
    resultFileSet := false, resultFileExists := false }

/-- C9 witness: the failed-path conclusion at a concrete stuck job. -/
theorem reaper_spec_witness :
    reapJob 20000 stuckJobW =
      ({ stuckJobW with status := JStatus.failed }, true) :=
  (reaper_spec 20000 [stuckJobW] stuckJobW (by decide)).1 (by decide)

/-! ## Pipeline control flow

Embedding of the control flow of `EggnogProcessor._run_eggnog`
(services.py:1178-2206) and its caller `process_fasta`
(services.py:280-376).  External tools (hmmsearch, DIAMOND, emapper)
are opaque collaborators; their observable outcomes — file-existence
checks, parsed hit counts, whether each per-source extraction
produced data rows — are supplied by a `PipelineEnv`.  The repo's own
template scripts (merge, pathway scoring) are modelled by the
embedded pure functions above. -/

structure PipelineEnv where
  /-- Pre-initialized database paths available, or lazy
  initialization succeeded (services.py:1242-1253). -/
  dbInitialized : Bool
  /-- `test -s` on the input file reported data (services.py:1280-1282). -/
  inputHasData : Bool
  /-- Parsed result of `grep -c ^> input` (services.py:1292-1306);
  `none` models an unparsable count, which is tolerated
  (services.py:1305-1306 logs and continues).  Note that on a
  readable file with no header line the check's stdout is two lines
  (`grep -c` prints `0` but exits nonzero, firing the `|| echo '0'`
  fallback as well), so `int()` raises and the parse is `none` — see
  `fastaCheckStdout` and `pyIntParse` below. -/
  headerCount : Option Nat
  /-- A gut database path (ramdisk or disk) was available, so the
  tier-1 block ran and `gut_hits_file` was set (services.py:1404-1422). -/
  gutDbAvailable : Bool
  /-- `gut_hits.tsv` exists after the tier-1 search (services.py:1455). -/
  gutOutFileExists : Bool
  /-- Parsed `wc -l` of the tier-1 hits file (services.py:1456-1466). -/
  gutHitCount : Option Nat
  /-- Extraction of the gut hits produced a table with data rows
  (services.py:1840-1874, 1886-1893). -/
  gutExtractOk : Bool
  /-- The tier-2 chain produced an eggNOG-side table with data rows
  (services.py:1697-1786, 1896-1903). -/
  emapperExtractOk : Bool
  /-- The KofamScan chain produced a KO table with data rows
  (services.py:1788-1838, 1905-1912). -/
  kofamExtractOk : Bool
  /-- Data rows of the merge template output when a merge runs. -/
  mergedRows : List MergedRow
  /-- The merge template subprocess succeeded and its output file
  exists (services.py:2023-2044). -/
  mergeOk : Bool

/-- services.py:1455-1466: `gut_hits_found` is set exactly when the
tier-1 block ran, its output file exists and the parsed hit count is
positive. -/
def gutHitsFound (env : PipelineEnv) : Bool :=
  env.gutDbAvailable && env.gutOutFileExists &&
    (match env.gutHitCount with
     | some n => decide (0 < n)
     | none => false)

/-- services.py:1470-1474: `skip_full_db_search` is set when
`gut_hits_found and gut_hits_file` — the hits file variable is
non-None exactly when the tier-1 block ran. -/
def skipFullDb (env : PipelineEnv) : Bool :=
  gutHitsFound env && env.gutDbAvailable

/-- services.py:1571-1587: `sequences_to_search` — true only in the
`elif not gut_hits_found` branch; every other branch leaves it
false, and the tier-2 DIAMOND stage (services.py:1591-1688) is
guarded by it. -/
def sequencesToSearch (env : PipelineEnv) : Bool :=
  if skipFullDb env then false
  else if !(gutHitsFound env) then true
  else false

/-- `has_gut_data` (services.py:1881, 1886-1893): a gut table exists
only when the tier-1 search found hits and its extraction produced
data rows. -/
def hasGutData (env : PipelineEnv) : Bool :=
  gutHitsFound env && env.gutExtractOk

/-- `has_emapper_data` (services.py:1882, 1896-1903): the tier-2
table is only written inside the `sequences_to_search` block. -/
def hasEmapperData (env : PipelineEnv) : Bool :=
  sequencesToSearch env && env.emapperExtractOk

/-- `has_kofam_data` (services.py:1883, 1905-1912). -/
def hasKofamData (env : PipelineEnv) : Bool :=
  env.kofamExtractOk

/-- Reading the merged table back as the pathway-scoring template
sees it: a missing `KEGG_KO` cell reads as the string `"nan"`. -/
def enzymeOfMerged (r : MergedRow) : EnzymeRow :=
  { kegg_ko :=
      match r.KEGG_KO with
      | some s => s
      | none => "nan"
    hmm_score := r.hmm_score
    confidence_score := r.confidence_score }

/-- Observable outcome of one `_run_eggnog` run. -/
structure PipelineResult where
  success : Bool
  error : Option String
  skip_full_db : Bool
  tier2Entered : Bool
  mergedWritten : Bool
  mergedDataRows : List MergedRow
  pathwayWritten : Bool
  pathwayRows : List ScoreRow
  fastaWritten : Bool

/-- A failing run: no artifact has been written. -/
def failResult (msg : String) : PipelineResult :=
  { success := false, error := some msg, skip_full_db := false,
    tier2Entered := false, mergedWritten := false, mergedDataRows := [],
    pathwayWritten := false, pathwayRows := [], fastaWritten := false }

/-- `_run_eggnog` (services.py:1178-2206): database check, input
validation, tier-1 search, tier-2 decision, per-source extraction,
merge (or the degrade path writing a header-only table), pathway
scoring, optional final FASTA. -/
def runEggnog (env : PipelineEnv) (defs : List PathwayDef) :
    PipelineResult :=
  if !env.dbInitialized then
    failResult "Failed to initialize databases. Please restart server to initialize at startup."
  else if !env.inputHasData then
    failResult "Input FASTA file is empty or has no sequences"
  else if env.headerCount = some 0 then
    failResult "Input file does not contain valid FASTA sequences (no sequence headers found)"
  else if !(hasGutData env || hasEmapperData env || hasKofamData env) then
    -- services.py:1914-1944, 2045-2047: write a header-only output
    -- file, skip the merge, continue to pathway scoring on the empty
    -- table; services.py:2113-2164: no data rows, so no final FASTA.
    { success := true, error := none, skip_full_db := skipFullDb env,
      tier2Entered := sequencesToSearch env, mergedWritten := true,
      mergedDataRows := [], pathwayWritten := true,
      pathwayRows := scoreAll [] defs, fastaWritten := false }
  else if env.mergeOk then
    { success := true, error := none, skip_full_db := skipFullDb env,
      tier2Entered := sequencesToSearch env, mergedWritten := true,
      mergedDataRows := env.mergedRows, pathwayWritten := true,
      pathwayRows := scoreAll (env.mergedRows.map enzymeOfMerged) defs,
      fastaWritten := !env.mergedRows.isEmpty }
  else
    { success := false, error := some "merge failed",
      skip_full_db := skipFullDb env,
      tier2Entered := sequencesToSearch env, mergedWritten := false,
      mergedDataRows := [], pathwayWritten := false, pathwayRows := [],
      fastaWritten := false }

/-- `process_fasta` (services.py:289-376): a successful result marks
the job `completed`; a failed result (or the raised exception
carrying its error) marks it `failed` with the error recorded, and
in both cases queue admission is re-triggered. -/
def processFasta (env : PipelineEnv) (defs : List PathwayDef) :
    JStatus × Option String :=
  let r := runEggnog env defs
  if r.success then (JStatus.completed, none)
  else (JStatus.failed, r.error)

theorem splitOnChar_ne_nil (sep : Char) :
    ∀ l : List Char, splitOnChar sep l ≠ [] := by
  intro l
  induction l with
  | nil => intro h; cases h
  | cons c cs ih =>
    unfold splitOnChar
    by_cases hc : c = sep
    · rw [if_pos hc]
      intro h
      cases h
    · rw [if_neg hc]
      cases hr : splitOnChar sep cs with
      | nil => intro h; cases h
      | cons a t => intro h; cases h

theorem scorePathway_nil (p : PathwayDef) : scorePathway [] p = none := by
  unfold scorePathway
  have hexp : dedupKos (splitStr '|' p.expected_kos) ≠ [] := by
    unfold splitStr
    cases hs : splitOnChar '|' p.expected_kos.toList with
    | nil => exact absurd hs (splitOnChar_ne_nil '|' _)
    | cons a t =>
      simp only [List.map_cons]
      unfold dedupKos
      intro h
      cases h
  have hlen : ¬ (dedupKos (splitStr '|' p.expected_kos)).length = 0 := by
    intro h
    exact hexp (List.length_eq_zero.mp h)
  rw [if_neg hlen]
  have hdet : detectedKos (dedupKos (splitStr '|' p.expected_kos)) [] = [] :=
    rfl
  rw [hdet]
  rfl

theorem scoreAll_nil (defs : List PathwayDef) : scoreAll [] defs = [] := by
  unfold scoreAll
  have h : defs.filterMap (scorePathway []) = [] := by
    induction defs with
    | nil => rfl
    | cons p ps ih =>
      rw [List.filterMap_cons, scorePathway_nil p, ih]
  rw [h]
  rfl

/-- C1 — whenever the tier-1 gut search finds at least one hit in a
run that passed input validation, the skip flag is set and the
tier-2 full-database DIAMOND stage is never entered. -/
theorem tier1_shortcut (env : PipelineEnv) (defs : List PathwayDef)
    (hdb : env.dbInitialized = true) (hin : env.inputHasData = true)
    (hhd : env.headerCount ≠ some 0) (hgut : gutHitsFound env = true) :
    (runEggnog env defs).skip_full_db = true ∧
      (runEggnog env defs).tier2Entered = false := by
  have hskip : skipFullDb env = true := by
    unfold skipFullDb
    rw [hgut]
    unfold gutHitsFound at hgut
    rcases Bool.and_eq_true_iff.mp hgut with ⟨h1, _⟩
    rcases Bool.and_eq_true_iff.mp h1 with ⟨h2, _⟩
    rw [h2]
    rfl
  have hseq : sequencesToSearch env = false := by
    unfold sequencesToSearch
    rw [hskip]
    rfl
  unfold runEggnog
  rw [hdb, hin, if_neg (by simp), if_neg (by simp), if_neg hhd]
  by_cases hsrc : (hasGutData env || hasEmapperData env ||
      hasKofamData env) = true
  · rw [if_neg (by simp [hsrc])]
    by_cases hm : env.mergeOk = true
    · rw [if_pos hm]
      exact ⟨hskip, hseq⟩
    · rw [if_neg hm]
      exact ⟨hskip, hseq⟩
  · have hsrc2 : (hasGutData env || hasEmapperData env ||
        hasKofamData env) = false := by
      simpa using hsrc
    rw [if_pos (by simp [hsrc2])]
    exact ⟨hskip, hseq⟩

/-- A concrete run with tier-1 hits for the C1 witness. -/
def envTier1Hit : PipelineEnv :=
  { dbInitialized := true, inputHasData := true, headerCount := some 2,
    gutDbAvailable := true, gutOutFileExists := true,
    gutHitCount := some 3, gutExtractOk := true,
    emapperExtractOk := false, kofamExtractOk := false,
    mergedRows := [], mergeOk := true }

/-- C1 witness: the shortcut at a concrete environment. -/
theorem tier1_shortcut_witness :
    (runEggnog envTier1Hit []).skip_full_db = true ∧
      (runEggnog envTier1Hit []).tier2Entered = false :=
  tier1_shortcut envTier1Hit [] (by decide) (by decide) (by decide)
    (by decide)

/-- C3 — when all three annotation sources have no data rows, the
run still succeeds: the job transitions to `completed`, a
header-only (zero data rows) merged table is written, and an empty
pathway table is written, with no error raised. -/
theorem degrade_not_fail (env : PipelineEnv) (defs : List PathwayDef)
    (hdb : env.dbInitialized = true) (hin : env.inputHasData = true)
    (hhd : env.headerCount ≠ some 0)
    (h1 : hasGutData env = false) (h2 : hasEmapperData env = false)
    (h3 : hasKofamData env = false) :
    (runEggnog env defs).success = true ∧
      (runEggnog env defs).mergedWritten = true ∧
      (runEggnog env defs).mergedDataRows = [] ∧
      (runEggnog env defs).pathwayWritten = true ∧
      (runEggnog env defs).pathwayRows = [] ∧
      processFasta env defs = (JStatus.completed, none) := by
  have hre : runEggnog env defs =
      { success := true, error := none, skip_full_db := skipFullDb env,
        tier2Entered := sequencesToSearch env, mergedWritten := true,
        mergedDataRows := [], pathwayWritten := true,
        pathwayRows := scoreAll [] defs, fastaWritten := false } := by
    unfold runEggnog
    rw [hdb, hin, if_neg (by simp), if_neg (by simp), if_neg hhd,
      if_pos (by simp [h1, h2, h3])]
  refine ⟨by rw [hre], by rw [hre], by rw [hre], by rw [hre], ?_, ?_⟩
  · rw [hre]
    exact scoreAll_nil defs
  · unfold processFasta
    rw [hre]
    rfl

/-- A concrete run with all three sources empty for the C3 witness. -/
def envAllEmpty : PipelineEnv :=
  { dbInitialized := true, inputHasData := true, headerCount := some 1,
    gutDbAvailable := true, gutOutFileExists := true,
    gutHitCount := some 0, gutExtractOk := false,
    emapperExtractOk := false, kofamExtractOk := false,
    mergedRows := [], mergeOk := true }

/-- C3 witness: the degrade path at a concrete environment. -/
theorem degrade_not_fail_witness :
    (runEggnog envAllEmpty []).success = true ∧
      (runEggnog envAllEmpty []).mergedWritten = true ∧
      (runEggnog envAllEmpty []).mergedDataRows = [] ∧
      (runEggnog envAllEmpty []).pathwayWritten = true ∧
      (runEggnog envAllEmpty []).pathwayRows = [] ∧
      processFasta envAllEmpty [] = (JStatus.completed, none) :=
  degrade_not_fail envAllEmpty [] (by decide) (by decide) (by decide)
    (by decide) (by decide) (by decide)

/-- The two early-failure branches of the input validation: an empty
input file (services.py:1280-1289) fails immediately, and so does a
header count that parses to zero (services.py:1296-1303).  The
latter branch is reachable only when the check's stdout is the
single line `0`, i.e. when `grep` could not read the file at all —
a readable file that merely lacks headers makes the parse raise
instead, and the run continues (the code-bug theorem below).  In
both failing branches no output artifact is written. -/
theorem input_errors_fail (env : PipelineEnv) (defs : List PathwayDef)
    (hdb : env.dbInitialized = true)
    (h : env.inputHasData = false ∨
      (env.inputHasData = true ∧ env.headerCount = some 0)) :
    (runEggnog env defs).success = false ∧
      ((env.inputHasData = false →
        (runEggnog env defs).error =
          some "Input FASTA file is empty or has no sequences") ∧
       (env.inputHasData = true → env.headerCount = some 0 →
        (runEggnog env defs).error =
          some "Input file does not contain valid FASTA sequences (no sequence headers found)")) ∧
      (runEggnog env defs).mergedWritten = false ∧
      (runEggnog env defs).pathwayWritten = false ∧
      (runEggnog env defs).fastaWritten = false ∧
      (processFasta env defs).1 = JStatus.failed ∧
      (processFasta env defs).2 = (runEggnog env defs).error := by
  have hre : runEggnog env defs =
      failResult (if env.inputHasData = false then
        "Input FASTA file is empty or has no sequences"
      else
        "Input file does not contain valid FASTA sequences (no sequence headers found)") := by
    rcases h with hempty | ⟨hdata, hzero⟩
    · unfold runEggnog
      rw [hdb, hempty]
      simp
    · unfold runEggnog
      rw [hdb, hdata, hzero]
      simp
  refine ⟨by rw [hre]; rfl, ⟨?_, ?_⟩, by rw [hre]; rfl, by rw [hre]; rfl,
    by rw [hre]; rfl, ?_, ?_⟩
  · intro hempty
    rw [hre, if_pos hempty]
    rfl
  · intro hdata _
    rw [hre, if_neg (by rw [hdata]; intro hc; cases hc)]
    rfl
  · unfold processFasta
    rw [hre]
    rfl
  · unfold processFasta
    rw [hre]
    rfl

/-- A concrete empty-input run exercising `input_errors_fail`. -/
def envEmptyInput : PipelineEnv :=
  { dbInitialized := true, inputHasData := false, headerCount := none,
    gutDbAvailable := true, gutOutFileExists := false,
    gutHitCount := none, gutExtractOk := false,
    emapperExtractOk := false, kofamExtractOk := false,
    mergedRows := [], mergeOk := true }

/-- The empty-input failure at a concrete environment. -/
theorem input_errors_fail_witness :
    (runEggnog envEmptyInput []).success = false ∧
      (processFasta envEmptyInput []).1 = JStatus.failed :=
  have h := input_errors_fail envEmptyInput [] (by decide)
    (Or.inl (by decide))
  ⟨h.1, h.2.2.2.2.2.1⟩

/-- services.py:1292: observable stdout of
`grep -c '^>' input 2>/dev/null || echo '0'` on a readable file with
`h` header lines.  `grep -c` always prints its count, but exits
nonzero when there is no match, so for `h = 0` the `|| echo '0'`
fallback fires as well and stdout carries two lines. -/
def fastaCheckStdout (h : Nat) : String :=
  if h = 0 then "0\n0" else toString h

/-- Python `int(s.strip())` as used at services.py:1295 on the
strings this check can produce: after `strip()` the call succeeds
exactly on a nonempty string of digits, and raises `ValueError`
(modelled as `none`) otherwise — in particular on the two-line
`"0\n0"`, whose inner newline `strip()` does not remove. -/
def pyIntParse (s : String) : Option Nat :=
  let t := pyStrip s.toList
  if t ≠ [] ∧ t.all Char.isDigit then
    some (t.foldl (fun acc c => acc * 10 + (c.toNat - 48)) 0)
  else none

/-- At a readable, non-empty, header-less input the header check's
stdout parses to no count at all — never to the zero count that the
failure branch services.py:1296-1303 requires. -/
theorem fastaCheck_headerless : pyIntParse (fastaCheckStdout 0) = none := by
  decide

/-- C8 — code bug (header-less half of the claim): a non-empty
upload with no FASTA header line does not fail validation.  The
check's stdout is `"0\n0"` (`grep -c` prints `0` yet exits nonzero,
so the `|| echo '0'` fallback fires too), `int()` raises, and
services.py:1305-1306 swallow the error and continue.  When, as for
such an input, no annotation source produces data, the job then
COMPLETES via the degrade path with a header-only merged table and
a pathway table written — contradicting the claimed immediate
failure with no artifacts.  The claim matches the code's own intent
(the dead failure branch and its error message at
services.py:1296-1303); the empty-file half does hold
(`input_errors_fail` above). -/
theorem headerless_input_completes (env : PipelineEnv)
    (defs : List PathwayDef)
    (hdb : env.dbInitialized = true) (hin : env.inputHasData = true)
    (hhc : env.headerCount = pyIntParse (fastaCheckStdout 0))
    (h1 : hasGutData env = false) (h2 : hasEmapperData env = false)
    (h3 : hasKofamData env = false) :
    (runEggnog env defs).success = true ∧
      (runEggnog env defs).error = none ∧
      (runEggnog env defs).mergedWritten = true ∧
      (runEggnog env defs).pathwayWritten = true ∧
      processFasta env defs = (JStatus.completed, none) := by
  have hhd : env.headerCount ≠ some 0 := by
    rw [hhc]
    decide
  have hre : runEggnog env defs =
      { success := true, error := none, skip_full_db := skipFullDb env,
        tier2Entered := sequencesToSearch env, mergedWritten := true,
        mergedDataRows := [], pathwayWritten := true,
        pathwayRows := scoreAll [] defs, fastaWritten := false } := by
    unfold runEggnog
    rw [hdb, hin, if_neg (by simp), if_neg (by simp), if_neg hhd,
      if_pos (by simp [h1, h2, h3])]
  refine ⟨by rw [hre], by rw [hre], by rw [hre], by rw [hre], ?_⟩
  unfold processFasta
  rw [hre]
  rfl

/-- A concrete run of a readable, non-empty, header-less upload with
all annotation sources empty, for the C8 witness. -/
def envHeaderless : PipelineEnv :=
  { dbInitialized := true, inputHasData := true,
    headerCount := pyIntParse (fastaCheckStdout 0),
    gutDbAvailable := true, gutOutFileExists := true,
    gutHitCount := some 0, gutExtractOk := false,
    emapperExtractOk := false, kofamExtractOk := false,
    mergedRows := [], mergeOk := true }

/-- C8 witness: the divergent completion at a concrete header-less
run. -/
theorem headerless_input_completes_witness :
    (runEggnog envHeaderless []).success = true ∧
      (runEggnog envHeaderless []).error = none ∧
      (runEggnog envHeaderless []).mergedWritten = true ∧
      (runEggnog envHeaderless []).pathwayWritten = true ∧
      processFasta envHeaderless [] = (JStatus.completed, none) :=
  headerless_input_completes envHeaderless [] (by decide) (by decide)
    (by decide) (by decide) (by decide) (by decide)

end GutHealth
